import Mathlib

/-!
# splitstore-diskusage: disk usage sampling agent

A shallow embedding of `splitstore/agent.go` and `metrics/metrics.go`.

Stateful Go code is embedded as explicit state passing: every function
returns a `Run`, the list of external effects it performed together with
either its return value or the way it aborted (a Go panic, or the process
exit of `log.Fatal`).  The operating system (`os.Stat`, the `du` child
process, the wall clock) is an explicit `World` argument.  The pieces of the
Go standard library the agent calls are modelled from their documented
behaviour in the first section.  Go strings are Lean strings, read as
sequences of code points; int64 values are integers, with the bounds of
int64 explicit where the library checks them; a `*SplitstoreDiskUsageAgent`
is its `AgentOptions`.
-/

namespace Splitstore

/-! ## Go runtime and standard library -/

/-- A Go `error` value, as far as the agent can tell them apart. -/
inductive GoError where
  /-- The error of `os.Stat` (a `*fs.PathError`). -/
  | statFailed (path : String) (cause : String)
  /-- The error of `(*exec.Cmd).Run`: the command could not be started or exited non-zero. -/
  | execFailed (cause : String)
  /-- A `*strconv.NumError` wrapping `strconv.ErrSyntax`. -/
  | numInvalid (num : String)
  /-- A `*strconv.NumError` wrapping `strconv.ErrRange`. -/
  | numOutOfRange (num : String)
  /-- The error of `time.ParseDuration`. -/
  | badDuration (msg : String)
  /-- The error of `prometheus.NewExporter`. -/
  | exporterFailed (cause : String)
  deriving DecidableEq, Repr

/-- A Go run-time panic. -/
inductive Panic where
  /-- Indexing a slice of length `len` at `idx`. -/
  | indexOutOfRange (idx len : Nat)
  /-- The panic of `time.NewTicker` on a non-positive interval. -/
  | nonPositiveTicker
  /-- The panic of `http.Handle` on a pattern it rejects. -/
  | httpHandleRejected (pattern : String)
  deriving DecidableEq, Repr

/-- How a call ends when it does not return: a panic unwinding the stack, or
`log.Fatal`, which prints and calls `os.Exit(1)`. -/
inductive Abort where
  | panicked (p : Panic)
  | fatal (code : Nat)
  deriving DecidableEq, Repr

/-- A line handed to package `log`. -/
inductive LogLine where
  /-- Line `log.Println(what, err)`. -/
  | withError (what : String) (err : GoError)
  /-- Line `log.Println(what)`. -/
  | plain (what : String)
  /-- Line `log.Println(what, t.Format(..))`, `t` in nanoseconds since the epoch. -/
  | withTime (what : String) (t : Int)
  deriving DecidableEq, Repr

/-- An externally visible action of the agent. -/
inductive Effect where
  /-- Call `os.Stat(p)`. -/
  | stat (p : String)
  /-- Call `exec.Command("du", "-s", p).Run()`. -/
  | runDu (p : String)
  /-- Call `log.Println` or the printing half of `log.Fatal`. -/
  | log (l : LogLine)
  /-- Call `stats.Record(ctx, ms)` with a measurement of the float64 `v`. -/
  | record (measure : String) (v : Int)
  /-- Call `prometheus.NewExporter` with the given namespace. -/
  | newExporter (ns : String)
  /-- Call `http.Handle(pattern, exporter)`. -/
  | httpHandle (pattern : String)
  /-- Statement `go func() ... http.ListenAndServe(addr, nil)`. -/
  | goListenAndServe (addr : String)
  /-- Call `time.NewTicker(d)`, `d` in nanoseconds. -/
  | newTicker (d : Int)
  /-- The deferred `t.Stop()`. -/
  | tickerStop
  deriving DecidableEq, Repr

/-- The result of running a piece of Go code: the effects performed, in
order, and the returned value or the abort. -/
structure Run (α : Type) where
  trace : List Effect
  out : Except Abort α

namespace Run

/-- Return `a` with no effect. -/
def ret {α : Type} (a : α) : Run α := ⟨[], .ok a⟩

/-- Perform one effect. -/
def emit (e : Effect) : Run Unit := ⟨[e], .ok ()⟩

/-- Abort with `a`. -/
def abort {α : Type} (a : Abort) : Run α := ⟨[], .error a⟩

/-- Sequencing: the effects of `m`, then, if `m` returned, those of `f`. -/
def andThen {α β : Type} (m : Run α) (f : α → Run β) : Run β :=
  match m.out with
  | .ok a => ⟨m.trace ++ (f a).trace, (f a).out⟩
  | .error e => ⟨m.trace, .error e⟩

end Run

instance : Monad Run where
  pure := Run.ret
  bind := Run.andThen

/-- Predicate `unicode.IsSpace`, on code points. -/
def isSpace (c : Char) : Bool :=
  let n := c.toNat
  n == 0x09 || n == 0x0A || n == 0x0B || n == 0x0C || n == 0x0D || n == 0x20 ||
  n == 0x85 || n == 0xA0 || n == 0x1680 || (0x2000 ≤ n && n ≤ 0x200A) ||
  n == 0x2028 || n == 0x2029 || n == 0x202F || n == 0x205F || n == 0x3000

/-- Worker of `Fields`: `cur` is the field being read, reversed. -/
def fieldsFrom : List Char → List Char → List String
  | [], cur => if cur.isEmpty then [] else [String.mk cur.reverse]
  | c :: cs, cur =>
    if isSpace c then
      if cur.isEmpty then fieldsFrom cs [] else String.mk cur.reverse :: fieldsFrom cs []
    else fieldsFrom cs (c :: cur)

/-- Function `strings.Fields`: the maximal runs of non-space characters of
`s`; empty when `s` is empty or all white space. -/
def Fields (s : String) : List String := fieldsFrom s.data []

def maxUint64 : Nat := 2 ^ 64 - 1

/-- The digit loop of `strconv.ParseUint(s, 10, 64)` with `n` accumulated so
far.  A byte that is not a decimal digit is a syntax error (a letter is a
digit not below the base, anything else is no digit at all); an overflow is
reported as soon as it happens, with the value `maxUint64`. -/
def parseUintFrom (s0 : String) : List Char → Nat → Nat × Option GoError
  | [], n => (n, none)
  | c :: cs, n =>
    if 48 ≤ c.toNat ∧ c.toNat ≤ 57 then
      let d := c.toNat - 48
      if n ≥ maxUint64 / 10 + 1 then (maxUint64, some (.numOutOfRange s0))
      else
        let n10 := n * 10
        let n1 := (n10 + d) % 2 ^ 64
        if n1 < n10 ∨ n1 > maxUint64 then (maxUint64, some (.numOutOfRange s0))
        else parseUintFrom s0 cs n1
    else (0, some (.numInvalid s0))

/-- Function `strconv.ParseUint(s, 10, 64)`. -/
def ParseUint (s0 : String) (s : List Char) : Nat × Option GoError :=
  if s.isEmpty then (0, some (.numInvalid s0)) else parseUintFrom s0 s 0

/-- Function `strconv.ParseInt(s, 10, 64)`: an optional sign, then decimal
digits.  On a syntax error the value is 0; on a range error it is the int64
of largest magnitude with the sign of the input. -/
def ParseInt (s0 : String) : Int × Option GoError :=
  match s0.data with
  | [] => (0, some (.numInvalid s0))
  | c :: cs =>
    let neg := c == '-'
    let s := if c == '+' ∨ c == '-' then cs else c :: cs
    match ParseUint s0 s with
    | (_, some (.numInvalid _)) => (0, some (.numInvalid s0))
    | (un, _) =>
      let cutoff : Nat := 2 ^ 63
      if ¬ neg ∧ un ≥ cutoff then ((cutoff : Int) - 1, some (.numOutOfRange s0))
      else if neg ∧ un > cutoff then (-(cutoff : Int), some (.numOutOfRange s0))
      else if neg then (-(un : Int), none) else ((un : Int), none)

/-- Split a path at every slash. -/
def splitSlash : List Char → List Char → List (List Char)
  | [], cur => [cur.reverse]
  | c :: cs, cur => if c == '/' then cur.reverse :: splitSlash cs [] else splitSlash cs (c :: cur)

/-- The element loop of `path.Clean`: `out` is the stack of elements written
so far (last first), `dotdot` the number of leading `..` elements that may
not be removed. -/
def cleanFrom (rooted : Bool) : List (List Char) → List (List Char) → Nat → List (List Char)
  | [], out, _ => out.reverse
  | e :: es, out, dotdot =>
    if e = [] ∨ e = ['.'] then cleanFrom rooted es out dotdot
    else if e = ['.', '.'] then
      if out.length > dotdot then cleanFrom rooted es out.tail dotdot
      else if ¬ rooted then cleanFrom rooted es (e :: out) (out.length + 1)
      else cleanFrom rooted es out dotdot
    else cleanFrom rooted es (e :: out) dotdot

/-- Function `path.Clean`. -/
def Clean (p : String) : String :=
  match p.data with
  | [] => "."
  | c :: cs =>
    let rooted := c == '/'
    let body := "/".intercalate ((cleanFrom rooted (splitSlash (c :: cs) []) [] 0).map String.mk)
    if rooted then "/" ++ body else if body = "" then "." else body

/-- Function `path.Join` for two elements: empty elements are ignored, the
rest joined with a slash and cleaned; the empty string if both are empty. -/
def pathJoin (a b : String) : String :=
  if a = "" ∧ b = "" then ""
  else if a = "" then Clean b
  else if b = "" then Clean a
  else Clean (a ++ "/" ++ b)

/-! ## The operating system -/

/-- What the agent observes of the machine during one sampling cycle. -/
structure World where
  /-- Result of `os.Stat(p)`: `none` when it succeeds. -/
  stat : String → Option GoError
  /-- Result of running `du -s p` with standard output captured: the error
  of `Run`, or the captured output of a run that exited with status 0. -/
  du : String → Except GoError String

/-! ## splitstore/agent.go -/

structure AgentOptions where
  Interval : String
  RepoPath : String
  MetricsEndpoint : String
  MetricsPath : String

structure diskUsageResult where
  marksetBadger : Int
  hotstoreBadger : Int
  coldstoreBadger : Int
  deriving DecidableEq, Repr

/-- Expression `strings.Fields(out)[0]`: panics on an empty slice. -/
def firstField (out : String) : Run String :=
  match Fields out with
  | [] => Run.abort (.panicked (.indexOutOfRange 0 0))
  | f :: _ => pure f

/-- Method `parseDiskUsageOn`: the Go pair `(int64, error)` is returned as a
pair whose second component is `none` for a nil error. -/
def parseDiskUsageOn (w : World) (opts : AgentOptions) (target : String) :
    Run (Int × Option GoError) := do
  Run.emit (.stat (pathJoin opts.RepoPath target))
  match w.stat (pathJoin opts.RepoPath target) with
  | some err => pure (0, some err)
  | none =>
    let folderPath := pathJoin opts.RepoPath target
    Run.emit (.runDu folderPath)
    match w.du folderPath with
    | .error err => pure (0, some err)
    | .ok out =>
      let f ← firstField out
      pure (ParseInt f)

/-- The statement pair `v, err = a.parseDiskUsageOn(target); if err != nil
then log`: yields the value assigned to the field. -/
def probeInto (w : World) (opts : AgentOptions) (target what : String) : Run Int := do
  let (v, err) ← parseDiskUsageOn w opts target
  match err with
  | some e => Run.emit (.log (.withError what e))
  | none => pure ()
  pure v

/-- Method `getDiskUsage`. -/
def getDiskUsage (w : World) (opts : AgentOptions) : Run diskUsageResult := do
  let result : diskUsageResult := ⟨0, 0, 0⟩
  let c ← probeInto w opts "chain" "error parsing usage on 'chain':"
  let result := { result with coldstoreBadger := c }
  let h ← probeInto w opts "splitstore/hot.badger" "error parsing usage on 'hot.badger':"
  let result := { result with hotstoreBadger := h }
  let m ← probeInto w opts "splitstore/markset.badger" "error parsing usage on 'markset.badger':"
  let result := { result with marksetBadger := m }
  pure result

/-! ## time.ParseDuration and time.NewTicker -/

def isDigit (c : Char) : Bool := 48 ≤ c.toNat && c.toNat ≤ 57

/-- Function `leadingInt` of package `time`: the leading digits of `s` as a
number and the rest of `s`; `none` is `errLeadingInt` (overflow). -/
def leadingInt : List Char → Nat → Option (Nat × List Char)
  | [], x => some (x, [])
  | c :: cs, x =>
    if isDigit c then
      if x > 2 ^ 63 / 10 then none
      else
        let x1 := x * 10 + (c.toNat - 48)
        if x1 > 2 ^ 63 then none else leadingInt cs x1
    else some (x, c :: cs)

/-- Function `leadingFraction` of package `time`: the leading digits of `s`
as a number `x` with the count `k` of digits taken (Go's `scale` is `10^k`)
and the rest of `s`; digits past an overflow are skipped. -/
def leadingFraction : List Char → Nat → Nat → Bool → Nat × Nat × List Char
  | [], x, k, _ => (x, k, [])
  | c :: cs, x, k, overflow =>
    if isDigit c then
      if overflow then leadingFraction cs x k true
      else if x > (2 ^ 63 - 1) / 10 then leadingFraction cs x k true
      else
        let y := x * 10 + (c.toNat - 48)
        if y > 2 ^ 63 then leadingFraction cs x k true
        else leadingFraction cs y (k + 1) false
    else (x, k, c :: cs)

/-- The table `unitMap` of package `time`, in nanoseconds. -/
def unitMap (u : String) : Option Nat :=
  if u = "ns" then some 1
  else if u = "us" ∨ u = "µs" ∨ u = "μs" then some 1000
  else if u = "ms" then some 1000000
  else if u = "s" then some 1000000000
  else if u = "m" then some 60000000000
  else if u = "h" then some 3600000000000
  else none

/-- The part `(\.[0-9]*)?` of a term of `time.ParseDuration`: the fraction
digits as a number, their count, the rest of the string, and whether a digit
was consumed (`post`). -/
def fractionPart : List Char → Nat × Nat × List Char × Bool
  | '.' :: t =>
    let r := leadingFraction t 0 0 false
    (r.1, r.2.1, r.2.2, t.length != r.2.2.length)
  | s => (0, 0, s, false)

/-- One pass of the loop of `time.ParseDuration` over `s` (not empty): one
term `[0-9]*(\.[0-9]*)?[a-z]+`.  Returns the term's nanoseconds and the rest
of `s`; error messages are Go's without the quoting of `orig`.  The one
floating-point expression of the function,
`uint64(float64(f) * (float64(unit) / scale))`, is the argument `frac`,
applied to `f`, `unit` and the number of fraction digits. -/
def durationTerm (frac : Nat → Nat → Nat → Nat) (orig : String) (s : List Char) :
    Except GoError (Nat × List Char) :=
  let invalid : GoError := .badDuration ("time: invalid duration " ++ orig)
  match s with
  | [] => .error invalid
  | c :: _ =>
    if ¬ (c == '.' ∨ isDigit c) then .error invalid
    else
      match leadingInt s 0 with
      | none => .error invalid
      | some (v, s1) =>
        let pre := s.length != s1.length
        let fp := fractionPart s1
        let f := fp.1
        let k := fp.2.1
        let s2 := fp.2.2.1
        let post := fp.2.2.2
        if ¬ pre ∧ ¬ post then .error invalid
        else
          let u := s2.takeWhile fun c => ¬ (c == '.' ∨ isDigit c)
          let s3 := s2.dropWhile fun c => ¬ (c == '.' ∨ isDigit c)
          if u.length = 0 then .error (.badDuration ("time: missing unit in duration " ++ orig))
          else
            match unitMap (String.mk u) with
            | none =>
              .error (.badDuration
                ("time: unknown unit " ++ String.mk u ++ " in duration " ++ orig))
            | some unit =>
              if v > 2 ^ 63 / unit then .error invalid
              else
                let v1 := v * unit
                let v2 := if f > 0 then (v1 + frac f unit k) % 2 ^ 64 else v1
                if f > 0 ∧ v2 > 2 ^ 63 then .error invalid
                else .ok (v2, s3)

/-- The loop `for s != ""` of `time.ParseDuration`, `d` the sum so far.
Every pass consumes at least one character, so `fuel` passes are enough for
a string of `fuel` characters (`durationLoop_fuel`); `none` is fuel running
out. -/
def durationLoop (frac : Nat → Nat → Nat → Nat) (orig : String) :
    Nat → List Char → Nat → Option (Except GoError Nat)
  | _, [], d => some (.ok d)
  | 0, _ :: _, _ => none
  | fuel + 1, c :: cs, d =>
    match durationTerm frac orig (c :: cs) with
    | .error e => some (.error e)
    | .ok (v, rest) =>
      let d1 := (d + v) % 2 ^ 64
      if d1 > 2 ^ 63 then some (.error (.badDuration ("time: invalid duration " ++ orig)))
      else durationLoop frac orig fuel rest d1

/-- The input of `time.ParseDuration` after its optional sign. -/
def afterSign (orig : String) : List Char :=
  match orig.data with
  | c :: cs => if c == '-' ∨ c == '+' then cs else c :: cs
  | [] => []

/-- Function `time.ParseDuration`, the result in nanoseconds.  The loop is
given one unit of fuel per character, which is never used up
(`ParseDuration_loop_returns`), so the `none` branch is dead. -/
def ParseDuration (frac : Nat → Nat → Nat → Nat) (orig : String) : Except GoError Int :=
  let invalid : GoError := .badDuration ("time: invalid duration " ++ orig)
  let neg := match orig.data with
    | c :: _ => c == '-'
    | [] => false
  let s := afterSign orig
  if s = ['0'] then .ok 0
  else if s = [] then .error invalid
  else
    match durationLoop frac orig s.length s 0 with
    | none => .error invalid
    | some (.error e) => .error e
    | some (.ok d) =>
      if neg then .ok (-(d : Int))
      else if d > 2 ^ 63 - 1 then .error invalid
      else .ok (d : Int)

/-- Function `time.NewTicker`: panics unless the interval is positive. -/
def NewTicker (d : Int) : Run Unit :=
  if d ≤ 0 then Run.abort (.panicked .nonPositiveTicker)
  else Run.emit (.newTicker d)

/-- A reading of the wall clock, as `time.Now()` returns it: nanoseconds
since the epoch, within the range of int64 (the years 1678 to 2262, the
readings `Time.UnixNano` can express). -/
structure Instant where
  nanos : Int
  inRange : -9223372036854775808 ≤ nanos ∧ nanos < 9223372036854775808

/-- Numerals denote instants after the epoch. -/
instance (n : Nat) : OfNat Instant n :=
  ⟨⟨((n % 9223372036854775808 : Nat) : Int), by omega⟩⟩

/-- Method `Time.Unix` of a wall-clock reading: whole seconds since the
epoch, rounded down. -/
def unixSeconds (t : Instant) : Int := t.nanos / 1000000000

/-- Number of low bits a float64 cannot keep of `n`: the least `sh`, counting
up from the given one, with `n < 2 ^ (53 + sh)`; `fuel` bounds the search. -/
def dropBits : Nat → Nat → Nat → Nat
  | 0, _, sh => sh
  | fuel + 1, n, sh => if n < 2 ^ (53 + sh) then sh else dropBits fuel n (sh + 1)

/-- The float64 nearest to the natural number `n`, ties to the even
significand; it is a natural number again.  The search for the number of
bits dropped gets `n` steps, which is enough (`dropBits_enough`).  Exact
below `2 ^ 1024`, where float64 overflows. -/
def roundNat (n : Nat) : Nat :=
  let sh := dropBits n n 0
  let q := n / 2 ^ sh
  let r := n % 2 ^ sh
  if 2 * r > 2 ^ sh ∨ (2 * r = 2 ^ sh ∧ q % 2 = 1) then (q + 1) * 2 ^ sh else q * 2 ^ sh

/-- The conversion `float64(v)` of an integer, as the integer the float64
denotes. -/
def toFloat64 (v : Int) : Int :=
  if v < 0 then -((roundNat v.natAbs : Nat) : Int) else ((roundNat v.natAbs : Nat) : Int)

/-! ## metrics/metrics.go and the OpenCensus registry -/

/-- A `stats.Int64Measure`: name, description, unit. -/
structure Measure where
  name : String
  description : String
  unit : String
  deriving DecidableEq, Repr

/-- Constant `stats.UnitBytes`. -/
def UnitBytes : String := "By"

/-- Constant `stats.UnitSeconds`. -/
def UnitSeconds : String := "s"

/-- A `stats.Measurement`: the measure and the measured value, which the
library keeps as a float64 (here the integer that float64 denotes). -/
structure Measurement where
  measure : Measure
  value : Int
  deriving DecidableEq, Repr

/-- Method `(*Int64Measure).M`: the int64 is converted to float64. -/
def Measure.M (m : Measure) (v : Int) : Measurement := ⟨m, toFloat64 v⟩

/-- The aggregations of package `view`. -/
inductive Aggregation where
  | LastValue
  | Sum
  | Count
  deriving DecidableEq, Repr

/-- A `view.View`, as far as metrics.go fills it in. -/
structure View where
  measure : Measure
  aggregation : Aggregation
  deriving DecidableEq, Repr

def ColdStoreBadgerSize : Measure :=
  ⟨"splitstore/coldstore_badger_size", "Size of the coldstore badger store", UnitBytes⟩

def HotStoreBadgerSize : Measure :=
  ⟨"splitstore/hotstore_badger_size", "Size of the hotstore badger store", UnitBytes⟩

def MarkSetBadgerSize : Measure :=
  ⟨"splitstore/markset_badger_size", "Size of the markset badger store", UnitBytes⟩

def DiskUsageLastUpdatedAt : Measure :=
  ⟨"splitstore/diskusage_last_updated_at",
    "Number of seconds since Unix epoch that usage was most recently updated", UnitSeconds⟩

def ColdStoreBadgerSizeView : View := ⟨ColdStoreBadgerSize, .LastValue⟩

def HotStoreBadgerSizeView : View := ⟨HotStoreBadgerSize, .LastValue⟩

def MarkSetBadgerSizeView : View := ⟨MarkSetBadgerSize, .LastValue⟩

def DiskUsageLastUpdatedAtView : View := ⟨DiskUsageLastUpdatedAt, .LastValue⟩

def AllViews : List View :=
  [ColdStoreBadgerSizeView, HotStoreBadgerSizeView, MarkSetBadgerSizeView,
    DiskUsageLastUpdatedAtView]

/-- One registered view with the data aggregated so far (`none` before the
first measurement): the float64 of `LastValueData` and `SumData`, the int64
of `CountData`, as the integer it denotes. -/
structure Row where
  view : View
  data : Option Int
  deriving DecidableEq, Repr

/-- The state of the metrics registry: the registered views and their data. -/
abbrev Registry := List Row

/-- New data of a view after a measurement of the float64 `f`: `LastValue`
keeps `f`, `Sum` adds it in float64 arithmetic, `Count` counts. -/
def aggregate : Aggregation → Option Int → Int → Int
  | .LastValue, _, f => f
  | .Sum, prev, f => toFloat64 (prev.getD 0 + f)
  | .Count, prev, _ => prev.getD 0 + 1

/-- Function `view.Register`, as called by `init` of package metrics. -/
def Register (views : List View) : Registry := views.map fun v => ⟨v, none⟩

/-- The registry update of `stats.Record(ctx, ms)`: every view on the
measure of `ms` aggregates its value. -/
def recordInto (ms : Measurement) (r : Registry) : Registry :=
  r.map fun row =>
    if row.view.measure.name = ms.measure.name then
      { row with data := some (aggregate row.view.aggregation row.data ms.value) }
    else row

/-- The value exported for measure `m`. -/
def gauge (r : Registry) (m : Measure) : Option Int :=
  (r.find? fun row => row.view.measure.name = m.name).bind Row.data

/-- The registry of package metrics with the given data in its four views. -/
def registryWith (cold hot markset updated : Option Int) : Registry :=
  [⟨ColdStoreBadgerSizeView, cold⟩, ⟨HotStoreBadgerSizeView, hot⟩,
    ⟨MarkSetBadgerSizeView, markset⟩, ⟨DiskUsageLastUpdatedAtView, updated⟩]

/-- Call `stats.Record(context.TODO(), ms)`. -/
def Record (ms : Measurement) (r : Registry) : Run Registry := do
  Run.emit (.record ms.measure.name ms.value)
  pure (recordInto ms r)

/-! ## splitstore/agent.go: publishing and the scheduler -/

/-- Method `updateMetrics`.  `now` is the reading of `time.Now()` in line 133
and `nowLog` the one in line 134. -/
def updateMetrics (w : World) (now nowLog : Instant) (opts : AgentOptions) (r : Registry) :
    Run Registry := do
  let duResult ← getDiskUsage w opts
  let r ← Record (ColdStoreBadgerSize.M duResult.coldstoreBadger) r
  let r ← Record (HotStoreBadgerSize.M duResult.hotstoreBadger) r
  let r ← Record (MarkSetBadgerSize.M duResult.marksetBadger) r
  let r ← Record (DiskUsageLastUpdatedAt.M (unixSeconds now)) r
  Run.emit (.log (.withTime "updated metrics" nowLog.nanos))
  pure r

/-- What the libraries called at startup do on this machine. -/
structure Startup where
  /-- Result of `prometheus.NewExporter`: `none` when it succeeds. -/
  newExporter : Option GoError
  /-- Whether `http.Handle` panics on the pattern. -/
  handleRejects : String → Bool
  /-- The floating-point expression of `time.ParseDuration`. -/
  frac : Nat → Nat → Nat → Nat

/-- Method `initMetricsEndpoint`.  The goroutine it starts is recorded as
launched; what the listener does afterwards runs concurrently and is not
part of this model. -/
def initMetricsEndpoint (env : Startup) (opts : AgentOptions) : Run Unit := do
  Run.emit (.newExporter "splitstore")
  match env.newExporter with
  | some err =>
    Run.emit (.log (.withError "error creating exporter:" err))
    Run.abort (.fatal 1)
  | none =>
    Run.emit (.httpHandle opts.MetricsPath)
    if env.handleRejects opts.MetricsPath then
      Run.abort (.panicked (.httpHandleRejected opts.MetricsPath))
    else
      Run.emit (.goListenAndServe opts.MetricsEndpoint)

/-- Lines 49 to 55 of `Start`: everything before the `for` loop. -/
def startup (env : Startup) (opts : AgentOptions) : Run Unit := do
  initMetricsEndpoint env opts
  match ParseDuration env.frac opts.Interval with
  | .error err =>
    Run.emit (.log (.withError "error parsing interval:" err))
    Run.abort (.fatal 1)
  | .ok d => NewTicker d

/-- Where the goroutine running `Start` is. -/
inductive Phase where
  /-- Before `Start` is called. -/
  | Idle
  /-- Blocked in the `select` of the loop. -/
  | Running
  /-- Returned from `Start` after `ctx.Done()`. -/
  | Stopped
  /-- Ended by a panic or by `log.Fatal`. -/
  | Aborted (a : Abort)
  deriving DecidableEq, Repr

/-- The case the `select` statement takes. -/
inductive Event where
  /-- Case `<-t.C`, with the machine as this cycle finds it. -/
  | tick (w : World) (now nowLog : Instant)
  /-- Case `<-ctx.Done()`. -/
  | cancel

/-- The agent process: scheduler phase, registry, effects so far, and the
number of calls of `updateMetrics` made. -/
structure Proc where
  phase : Phase
  registry : Registry
  trace : List Effect
  updates : Nat

/-- The process before `Start`: package metrics has registered its views. -/
def Proc.init (r : Registry) : Proc := ⟨.Idle, r, [], 0⟩

/-- Entering `Start`: from `Idle` run the startup lines. -/
def start (env : Startup) (opts : AgentOptions) (p : Proc) : Proc :=
  match p.phase with
  | .Idle =>
    let s := startup env opts
    match s.out with
    | .ok _ => { p with phase := .Running, trace := p.trace ++ s.trace }
    | .error a => { p with phase := .Aborted a, trace := p.trace ++ s.trace }
  | _ => p

/-- One pass of the loop of `Start`.  Outside `Running` nothing happens.  A
panic leaving `updateMetrics` runs the deferred `t.Stop()` and ends the
process with the registry as it was. -/
def step (opts : AgentOptions) (p : Proc) : Event → Proc
  | .tick w now nowLog =>
    match p.phase with
    | .Running =>
      let u := updateMetrics w now nowLog opts p.registry
      match u.out with
      | .ok r =>
        { p with registry := r, trace := p.trace ++ u.trace, updates := p.updates + 1 }
      | .error a =>
        { p with phase := .Aborted a, trace := p.trace ++ u.trace ++ [.tickerStop],
                 updates := p.updates + 1 }
    | _ => p
  | .cancel =>
    match p.phase with
    | .Running =>
      { p with phase := .Stopped,
               trace := p.trace ++
                 [.log (.plain "context cancelled, stopping agent"), .tickerStop] }
    | _ => p

/-- Method `Start` run against the sequence of cases its `select` takes. -/
def Start (env : Startup) (opts : AgentOptions) (r : Registry) (events : List Event) : Proc :=
  events.foldl (step opts) (start env opts (Proc.init r))

/-- Number of `stats.Record` calls in a trace. -/
def publishes (t : List Effect) : Nat :=
  (t.filter fun e => match e with
    | .record _ _ => true
    | _ => false).length

/-- The effects of `initMetricsEndpoint` when it returns. -/
def endpointEffects (opts : AgentOptions) : List Effect :=
  [.newExporter "splitstore", .httpHandle opts.MetricsPath,
    .goListenAndServe opts.MetricsEndpoint]

/-! ## Sample machines -/

/-- The line `du -s p` prints for a tree with `allocBytes` bytes allocated:
the size in blocks of `blockSize` bytes, rounded up, a tab, the path.  GNU
du counts in blocks of 1024 bytes unless an option or the environment says
otherwise, and the agent passes neither. -/
def duSummary (blockSize allocBytes : Nat) (p : String) : String :=
  toString ((allocBytes + blockSize - 1) / blockSize) ++ "\t" ++ p ++ "\n"

/-- Options with repo path `/data` and the defaults of the other flags. -/
def dataOpts : AgentOptions := ⟨"10m", "/data", ":8080", "/metrics"⟩

/-- A machine with `/data/chain` and `/data/splitstore/markset.badger`
present and `/data/splitstore/hot.badger` missing; `du` exits with status 0
on both, printing `chainOut` for `/data/chain` and the line of a tree of 8192
allocated bytes for the markset. -/
def scenarioWith (chainOut : String) : World where
  stat p :=
    if p = "/data/chain" ∨ p = "/data/splitstore/markset.badger" then none
    else some (.statFailed p "no such file or directory")
  du p :=
    if p = "/data/chain" then .ok chainOut
    else if p = "/data/splitstore/markset.badger" then .ok (duSummary 1024 8192 p)
    else .error (.execFailed "exit status 1")

/-- The machine of the specification's scenario: `/data/chain` holds 4096
allocated bytes, `/data/splitstore/hot.badger` is missing and
`/data/splitstore/markset.badger` holds 8192 allocated bytes. -/
def scenarioWorld : World := scenarioWith (duSummary 1024 4096 "/data/chain")

/-- A machine on which every path exists and holds 4096 allocated bytes. -/
def healthyWorld : World where
  stat _ := none
  du p := .ok (duSummary 1024 4096 p)

/-- A machine on which the exporter is created and `http.Handle` accepts
every pattern; fractions of a duration are rounded down. -/
def plainStartup : Startup := ⟨none, fun _ => false, fun f u k => f * u / 10 ^ k⟩

/-- The options of `dataOpts` with another interval. -/
def optsWithInterval (interval : String) : AgentOptions :=
  { dataOpts with Interval := interval }

/-! ## Sequencing lemmas -/

theorem Run.bind_eq {α β : Type} (m : Run α) (f : α → Run β) :
    (m >>= f) = Run.andThen m f := rfl

theorem Run.pure_eq {α : Type} (a : α) : (pure a : Run α) = Run.ret a := rfl

theorem Run.andThen_out_ok {α β : Type} (m : Run α) (f : α → Run β) (a : α)
    (h : m.out = .ok a) : (Run.andThen m f).out = (f a).out := by
  simp [Run.andThen, h]

theorem Run.andThen_trace_ok {α β : Type} (m : Run α) (f : α → Run β) (a : α)
    (h : m.out = .ok a) : (Run.andThen m f).trace = m.trace ++ (f a).trace := by
  simp [Run.andThen, h]

theorem Run.andThen_out_error {α β : Type} (m : Run α) (f : α → Run β) (e : Abort)
    (h : m.out = .error e) : (Run.andThen m f).out = .error e := by
  simp [Run.andThen, h]

/-! ## The probe and the sampler -/

/-- The value `probeInto` assigns is the first component of what the probe
returned, error or not. -/
theorem probeInto_out (w : World) (opts : AgentOptions) (target what : String)
    (r : Int × Option GoError) (h : (parseDiskUsageOn w opts target).out = .ok r) :
    (probeInto w opts target what).out = .ok r.1 := by
  obtain ⟨v, err⟩ := r
  unfold probeInto
  rw [Run.bind_eq, Run.andThen_out_ok _ _ _ h]
  cases err <;> rfl

/-- Method `probeInto` performs the effects of the probe first. -/
theorem probeInto_trace (w : World) (opts : AgentOptions) (target what : String) :
    ∃ rest, (probeInto w opts target what).trace =
      (parseDiskUsageOn w opts target).trace ++ rest := by
  unfold probeInto
  rw [Run.bind_eq]
  unfold Run.andThen
  split
  · exact ⟨_, rfl⟩
  · exact ⟨[], by simp⟩

/-- The probe starts by calling `os.Stat` on the joined path. -/
theorem parseDiskUsageOn_trace_head (w : World) (opts : AgentOptions) (target : String) :
    ∃ rest, (parseDiskUsageOn w opts target).trace =
      Effect.stat (pathJoin opts.RepoPath target) :: rest := by
  unfold parseDiskUsageOn
  rw [Run.bind_eq]
  exact ⟨_, rfl⟩

/-- If the three probes return, the sampler returns the three values. -/
theorem getDiskUsage_out (w : World) (opts : AgentOptions) (c h m : Int × Option GoError)
    (hc : (parseDiskUsageOn w opts "chain").out = .ok c)
    (hh : (parseDiskUsageOn w opts "splitstore/hot.badger").out = .ok h)
    (hm : (parseDiskUsageOn w opts "splitstore/markset.badger").out = .ok m) :
    (getDiskUsage w opts).out = .ok ⟨m.1, h.1, c.1⟩ := by
  unfold getDiskUsage
  rw [Run.bind_eq, Run.andThen_out_ok _ _ _ (probeInto_out w opts _ _ c hc)]
  rw [Run.bind_eq, Run.andThen_out_ok _ _ _ (probeInto_out w opts _ _ h hh)]
  rw [Run.bind_eq, Run.andThen_out_ok _ _ _ (probeInto_out w opts _ _ m hm)]
  rfl

/-- If the three probes return, the sampler calls `os.Stat` on all three
targets. -/
theorem getDiskUsage_stats (w : World) (opts : AgentOptions) (c h m : Int × Option GoError)
    (hc : (parseDiskUsageOn w opts "chain").out = .ok c)
    (hh : (parseDiskUsageOn w opts "splitstore/hot.badger").out = .ok h)
    (_hm : (parseDiskUsageOn w opts "splitstore/markset.badger").out = .ok m) :
    Effect.stat (pathJoin opts.RepoPath "chain") ∈ (getDiskUsage w opts).trace ∧
    Effect.stat (pathJoin opts.RepoPath "splitstore/hot.badger") ∈
      (getDiskUsage w opts).trace ∧
    Effect.stat (pathJoin opts.RepoPath "splitstore/markset.badger") ∈
      (getDiskUsage w opts).trace := by
  obtain ⟨r1, h1⟩ := probeInto_trace w opts "chain" "error parsing usage on 'chain':"
  obtain ⟨r2, h2⟩ := probeInto_trace w opts "splitstore/hot.badger"
    "error parsing usage on 'hot.badger':"
  obtain ⟨r3, h3⟩ := probeInto_trace w opts "splitstore/markset.badger"
    "error parsing usage on 'markset.badger':"
  obtain ⟨q1, g1⟩ := parseDiskUsageOn_trace_head w opts "chain"
  obtain ⟨q2, g2⟩ := parseDiskUsageOn_trace_head w opts "splitstore/hot.badger"
  obtain ⟨q3, g3⟩ := parseDiskUsageOn_trace_head w opts "splitstore/markset.badger"
  unfold getDiskUsage
  rw [Run.bind_eq, Run.andThen_trace_ok _ _ _ (probeInto_out w opts _ _ c hc)]
  rw [Run.bind_eq, Run.andThen_trace_ok _ _ _ (probeInto_out w opts _ _ h hh)]
  rw [Run.bind_eq]
  rw [h1, h2, g1, g2]
  refine ⟨by simp, by simp, ?_⟩
  unfold Run.andThen
  split <;> simp [h3, g3]

/-- When the three probes return (a value or an error), getDiskUsage
returns a result whose coldstoreBadger, hotstoreBadger and marksetBadger are
the values returned by the probes of `chain`, `splitstore/hot.badger` and
`splitstore/markset.badger`; in particular a probe that succeeds with `n`
puts `n` in its field whatever errors the other two return, and all three
targets are probed. -/
theorem getDiskUsage_fields (w : World) (opts : AgentOptions)
    (c h m : Int × Option GoError)
    (hc : (parseDiskUsageOn w opts "chain").out = .ok c)
    (hh : (parseDiskUsageOn w opts "splitstore/hot.badger").out = .ok h)
    (hm : (parseDiskUsageOn w opts "splitstore/markset.badger").out = .ok m) :
    (∃ r, (getDiskUsage w opts).out = .ok r ∧
      r.coldstoreBadger = c.1 ∧ r.hotstoreBadger = h.1 ∧ r.marksetBadger = m.1) ∧
    Effect.stat (pathJoin opts.RepoPath "chain") ∈ (getDiskUsage w opts).trace ∧
    Effect.stat (pathJoin opts.RepoPath "splitstore/hot.badger") ∈
      (getDiskUsage w opts).trace ∧
    Effect.stat (pathJoin opts.RepoPath "splitstore/markset.badger") ∈
      (getDiskUsage w opts).trace :=
  ⟨⟨_, getDiskUsage_out w opts c h m hc hh hm, rfl, rfl, rfl⟩,
    getDiskUsage_stats w opts c h m hc hh hm⟩

/-- The scenario machine: the probe of `chain` succeeds with 4, the probe of
`hot.badger` fails, the probe of `markset.badger` succeeds with 8, and the
result holds 4, 0 and 8. -/
theorem getDiskUsage_fields_witness :
    (parseDiskUsageOn scenarioWorld dataOpts "chain").out = .ok (4, none) ∧
    (parseDiskUsageOn scenarioWorld dataOpts "splitstore/hot.badger").out =
      .ok (0, some (.statFailed "/data/splitstore/hot.badger" "no such file or directory")) ∧
    (parseDiskUsageOn scenarioWorld dataOpts "splitstore/markset.badger").out =
      .ok (8, none) ∧
    ((∃ r, (getDiskUsage scenarioWorld dataOpts).out = .ok r ∧
      r.coldstoreBadger = 4 ∧ r.hotstoreBadger = 0 ∧ r.marksetBadger = 8) ∧
    Effect.stat (pathJoin dataOpts.RepoPath "chain") ∈
      (getDiskUsage scenarioWorld dataOpts).trace ∧
    Effect.stat (pathJoin dataOpts.RepoPath "splitstore/hot.badger") ∈
      (getDiskUsage scenarioWorld dataOpts).trace ∧
    Effect.stat (pathJoin dataOpts.RepoPath "splitstore/markset.badger") ∈
      (getDiskUsage scenarioWorld dataOpts).trace) :=
  ⟨rfl, rfl, rfl, getDiskUsage_fields scenarioWorld dataOpts _ _ _ rfl rfl rfl⟩

/-- C1: on a machine where `du -s /data/chain` exits with status 0 and prints
nothing, the probe of `splitstore/markset.badger` on its own succeeds with
value 8, but getDiskUsage returns no result: the probe of `chain` panics,
the panic ends getDiskUsage, and its only effects are the `os.Stat` and `du`
calls on `/data/chain`; the hot store and the markset are never probed. -/
theorem getDiskUsage_panic_skips_probes :
    (parseDiskUsageOn (scenarioWith "") dataOpts "splitstore/markset.badger").out =
      .ok (8, none) ∧
    (parseDiskUsageOn (scenarioWith "") dataOpts "splitstore/hot.badger").out =
      .ok (0, some (.statFailed "/data/splitstore/hot.badger" "no such file or directory")) ∧
    (getDiskUsage (scenarioWith "") dataOpts).out =
      .error (.panicked (.indexOutOfRange 0 0)) ∧
    (getDiskUsage (scenarioWith "") dataOpts).trace =
      [.stat "/data/chain", .runDu "/data/chain"] :=
  ⟨rfl, rfl, rfl, rfl⟩

/-- C6: if `os.Stat` reports an error for the joined path, parseDiskUsageOn
returns value 0 with that error, and its only effect is the `os.Stat` call:
`du` is not run. -/
theorem parseDiskUsageOn_missing (w : World) (opts : AgentOptions) (target : String)
    (err : GoError) (h : w.stat (pathJoin opts.RepoPath target) = some err) :
    (parseDiskUsageOn w opts target).out = .ok (0, some err) ∧
    (parseDiskUsageOn w opts target).trace = [.stat (pathJoin opts.RepoPath target)] ∧
    ∀ p, Effect.runDu p ∉ (parseDiskUsageOn w opts target).trace := by
  have ht : (parseDiskUsageOn w opts target).trace =
      [.stat (pathJoin opts.RepoPath target)] := by
    unfold parseDiskUsageOn
    rw [Run.bind_eq, h]
    rfl
  refine ⟨?_, ht, ?_⟩
  · unfold parseDiskUsageOn
    rw [Run.bind_eq, h]
    rfl
  · intro p
    rw [ht]
    simp

/-- Witness of C6: `/data/splitstore/hot.badger` is missing on the scenario
machine. -/
theorem parseDiskUsageOn_missing_witness :
    scenarioWorld.stat (pathJoin dataOpts.RepoPath "splitstore/hot.badger") =
      some (.statFailed "/data/splitstore/hot.badger" "no such file or directory") ∧
    ((parseDiskUsageOn scenarioWorld dataOpts "splitstore/hot.badger").out =
      .ok (0, some (.statFailed "/data/splitstore/hot.badger" "no such file or directory")) ∧
    (parseDiskUsageOn scenarioWorld dataOpts "splitstore/hot.badger").trace =
      [.stat (pathJoin dataOpts.RepoPath "splitstore/hot.badger")] ∧
    ∀ p, Effect.runDu p ∉
      (parseDiskUsageOn scenarioWorld dataOpts "splitstore/hot.badger").trace) :=
  ⟨rfl, parseDiskUsageOn_missing scenarioWorld dataOpts "splitstore/hot.badger" _ rfl⟩

/-- Function `ParseInt` returns a non-zero value with an error only for a
range error, and then the value is the largest or the smallest int64. -/
theorem ParseInt_error_value (s : String) (v : Int) (e : GoError)
    (h : ParseInt s = (v, some e)) :
    v = 0 ∨ (e = .numOutOfRange s ∧ (v = 2 ^ 63 - 1 ∨ v = -(2 ^ 63))) := by
  unfold ParseInt at h
  cases hd : s.data with
  | nil =>
    simp [hd] at h
    exact Or.inl h.1.symm
  | cons c cs =>
    simp only [hd] at h
    generalize ParseUint s (if c == '+' ∨ c == '-' then cs else c :: cs) = pu at h
    obtain ⟨un, err⟩ := pu
    have key : ∀ r : Int × Option GoError,
        (if ¬ (c == '-') = true ∧ un ≥ 2 ^ 63 then
            (((2 ^ 63 : Nat) : Int) - 1, some (GoError.numOutOfRange s))
          else if (c == '-') = true ∧ un > 2 ^ 63 then
            (-((2 ^ 63 : Nat) : Int), some (GoError.numOutOfRange s))
          else if (c == '-') = true then (-(un : Int), none) else ((un : Int), none)) = r →
        r = (v, some e) →
        v = 0 ∨ (e = .numOutOfRange s ∧ (v = 2 ^ 63 - 1 ∨ v = -(2 ^ 63))) := by
      intro r hr hv
      subst hv
      split_ifs at hr
      · simp only [Prod.mk.injEq, Option.some.injEq] at hr
        exact Or.inr ⟨hr.2.symm, Or.inl (by rw [← hr.1]; norm_num)⟩
      · simp only [Prod.mk.injEq, Option.some.injEq] at hr
        exact Or.inr ⟨hr.2.symm, Or.inr (by rw [← hr.1]; norm_num)⟩
      · simp at hr
      · simp at hr
    cases err with
    | none => exact key _ rfl h
    | some e1 =>
      cases e1 with
      | numInvalid n =>
        simp only [Prod.mk.injEq] at h
        exact Or.inl h.1.symm
      | statFailed a b => exact key _ rfl h
      | execFailed a => exact key _ rfl h
      | numOutOfRange a => exact key _ rfl h
      | badDuration a => exact key _ rfl h
      | exporterFailed a => exact key _ rfl h

/-- The value a probe returns with an error is 0, except after a range error
of `strconv.ParseInt`, where it is the largest or the smallest int64. -/
theorem parseDiskUsageOn_error_value (w : World) (opts : AgentOptions) (target : String)
    (v : Int) (e : GoError) (h : (parseDiskUsageOn w opts target).out = .ok (v, some e)) :
    v = 0 ∨ (∃ s, e = .numOutOfRange s) ∧ (v = 2 ^ 63 - 1 ∨ v = -(2 ^ 63)) := by
  unfold parseDiskUsageOn at h
  rw [Run.bind_eq] at h
  rw [Run.andThen_out_ok _ _ () rfl] at h
  split at h
  · simp [Run.pure_eq, Run.ret] at h
    exact Or.inl h.1.symm
  · rw [Run.bind_eq, Run.andThen_out_ok _ _ () rfl] at h
    split at h
    · simp [Run.pure_eq, Run.ret] at h
      exact Or.inl h.1.symm
    · rename_i out _
      rw [Run.bind_eq] at h
      unfold firstField at h
      split at h
      · simp [Run.andThen, Run.abort] at h
      · rename_i f _ _
        simp only [Run.andThen, Run.pure_eq, Run.ret] at h
        have h2 : ParseInt f = (v, some e) := by
          simpa using h
        rcases ParseInt_error_value f v e h2 with h0 | ⟨he, hv⟩
        · exact Or.inl h0
        · exact Or.inr ⟨⟨f, he⟩, hv⟩

/-- C2: on a machine where `du -s /data/chain` exits with status 0 and prints
the count 9223372036854775808, the probe of `chain` returns an error (a range
error of `strconv.ParseInt`) together with the value 9223372036854775807, and
getDiskUsage returns a result whose coldstoreBadger is 9223372036854775807,
not zero. -/
theorem getDiskUsage_range_error_field :
    (parseDiskUsageOn (scenarioWith "9223372036854775808\t/data/chain\n") dataOpts "chain").out =
      .ok (9223372036854775807, some (.numOutOfRange "9223372036854775808")) ∧
    (getDiskUsage (scenarioWith "9223372036854775808\t/data/chain\n") dataOpts).out =
      .ok ⟨8, 0, 9223372036854775807⟩ :=
  ⟨rfl, rfl⟩

/-- C3: on a machine where `du -s /data/chain` exits with status 0 and prints
nothing, or only white space, `strings.Fields` is empty, the index 0 is out
of range, and parseDiskUsageOn and getDiskUsage panic instead of returning. -/
theorem getDiskUsage_empty_output_panics :
    Fields "" = [] ∧ Fields " \n" = [] ∧
    (parseDiskUsageOn (scenarioWith "") dataOpts "chain").out =
      .error (.panicked (.indexOutOfRange 0 0)) ∧
    (getDiskUsage (scenarioWith "") dataOpts).out =
      .error (.panicked (.indexOutOfRange 0 0)) ∧
    (parseDiskUsageOn (scenarioWith " \n") dataOpts "chain").out =
      .error (.panicked (.indexOutOfRange 0 0)) ∧
    (getDiskUsage (scenarioWith " \n") dataOpts).out =
      .error (.panicked (.indexOutOfRange 0 0)) :=
  ⟨rfl, rfl, rfl, rfl, rfl, rfl⟩

/-- C4: on the scenario machine `du -s` counts the 4096 allocated bytes of
`/data/chain` as 4 blocks of 1024 bytes and the 8192 bytes of the markset as
8, and parseDiskUsageOn returns these block counts, 4 and 8, not the byte
counts 4096 and 8192, although the measures are declared in bytes. -/
theorem parseDiskUsageOn_returns_blocks :
    scenarioWorld.du "/data/chain" = .ok "4\t/data/chain\n" ∧
    (parseDiskUsageOn scenarioWorld dataOpts "chain").out = .ok (4, none) ∧
    (parseDiskUsageOn scenarioWorld dataOpts "splitstore/markset.badger").out =
      .ok (8, none) ∧
    ColdStoreBadgerSize.unit = "By" :=
  ⟨rfl, rfl, rfl, rfl⟩

/-! ## float64 and the clock -/

theorem dropBits_of_lt (fuel n sh : Nat) (h : n < 2 ^ (53 + sh)) :
    dropBits fuel n sh = sh := by
  cases fuel with
  | zero => rfl
  | succ k => simp [dropBits, h]

/-- The search of `dropBits` ends on a number of bits that is enough, if it
has the fuel to get there. -/
theorem dropBits_spec (n : Nat) :
    ∀ (fuel sh : Nat), n < 2 ^ (53 + sh + fuel) → n < 2 ^ (53 + dropBits fuel n sh) := by
  intro fuel
  induction fuel with
  | zero =>
    intro sh h
    simpa [dropBits] using h
  | succ k ih =>
    intro sh h
    unfold dropBits
    split_ifs with hlt
    · exact hlt
    · apply ih
      have e : 53 + (sh + 1) + k = 53 + sh + (k + 1) := by omega
      rw [e]
      exact h

/-- With `n` steps the search of `roundNat` finds the bits to drop. -/
theorem dropBits_enough (n : Nat) : n < 2 ^ (53 + dropBits n n 0) := by
  apply dropBits_spec
  calc n < 2 ^ n := Nat.lt_two_pow n
    _ ≤ 2 ^ (53 + 0 + n) := Nat.pow_le_pow_right (by norm_num) (by omega)

/-- Natural numbers up to `2 ^ 53` are float64 values. -/
theorem roundNat_exact (n : Nat) (h : n ≤ 2 ^ 53) : roundNat n = n := by
  rcases Nat.lt_or_ge n (2 ^ 53) with hlt | hge
  · have h0 : dropBits n n 0 = 0 := dropBits_of_lt n n 0 (by simpa using hlt)
    simp [roundNat, h0, Nat.mod_one]
  · have e : n = 2 ^ 53 := Nat.le_antisymm h hge
    subst e
    rfl

/-- Integers of magnitude up to `2 ^ 53` convert to float64 unchanged. -/
theorem toFloat64_exact (v : Int) (h : v.natAbs ≤ 2 ^ 53) : toFloat64 v = v := by
  unfold toFloat64
  rw [roundNat_exact _ h]
  split_ifs with hneg
  · omega
  · omega

/-- Seconds since the epoch of a clock reading are far below `2 ^ 53`. -/
theorem unixSeconds_natAbs (t : Instant) : (unixSeconds t).natAbs ≤ 2 ^ 53 := by
  have h := t.inRange
  unfold unixSeconds
  have h1 : t.nanos / 1000000000 ≤ 9223372036 := by omega
  have h2 : -9223372037 ≤ t.nanos / 1000000000 := by omega
  have e : (2 : Nat) ^ 53 = 9007199254740992 := by norm_num
  rw [e]
  omega

/-- The last-updated measurement is the seconds since the epoch, exactly. -/
theorem toFloat64_unixSeconds (t : Instant) : toFloat64 (unixSeconds t) = unixSeconds t :=
  toFloat64_exact _ (unixSeconds_natAbs t)

/-! ## Publishing -/

/-- The registry of package metrics after `init` is the registry with no
data. -/
theorem Register_AllViews : Register AllViews = registryWith none none none none := rfl

/-- If the sampler returns `r`, updateMetrics returns the registry with the
four measurements recorded in order. -/
theorem updateMetrics_out (w : World) (now nowLog : Instant) (opts : AgentOptions)
    (reg : Registry) (r : diskUsageResult) (hs : (getDiskUsage w opts).out = .ok r) :
    (updateMetrics w now nowLog opts reg).out =
      .ok (recordInto (DiskUsageLastUpdatedAt.M (unixSeconds now))
        (recordInto (MarkSetBadgerSize.M r.marksetBadger)
          (recordInto (HotStoreBadgerSize.M r.hotstoreBadger)
            (recordInto (ColdStoreBadgerSize.M r.coldstoreBadger) reg)))) := by
  unfold updateMetrics
  rw [Run.bind_eq, Run.andThen_out_ok _ _ _ hs]
  rfl

/-- If the sampler aborts, so does updateMetrics. -/
theorem updateMetrics_out_error (w : World) (now nowLog : Instant) (opts : AgentOptions)
    (reg : Registry) (a : Abort) (hs : (getDiskUsage w opts).out = .error a) :
    (updateMetrics w now nowLog opts reg).out = .error a := by
  unfold updateMetrics
  rw [Run.bind_eq, Run.andThen_out_error _ _ _ hs]

/-- Recording the four measurements overwrites the four views with the
float64 of each value. -/
theorem recordInto_registryWith (c h m t : Option Int) (vc vh vm vt : Int) :
    recordInto (DiskUsageLastUpdatedAt.M vt)
      (recordInto (MarkSetBadgerSize.M vm)
        (recordInto (HotStoreBadgerSize.M vh)
          (recordInto (ColdStoreBadgerSize.M vc) (registryWith c h m t)))) =
      registryWith (some (toFloat64 vc)) (some (toFloat64 vh)) (some (toFloat64 vm))
        (some (toFloat64 vt)) := rfl

/-- C5 (as stated, refuted): on a machine where `du -s /data/chain` prints
the count 9007199254740993, the sample's coldstoreBadger is 9007199254740993
and, after one call of updateMetrics, the cold-store gauge holds
9007199254740992, the float64 the measurement is converted to. -/
theorem updateMetrics_rounds_large_sample :
    (getDiskUsage (scenarioWith "9007199254740993\t/data/chain\n") dataOpts).out =
      .ok ⟨8, 0, 9007199254740993⟩ ∧
    (updateMetrics (scenarioWith "9007199254740993\t/data/chain\n")
      1700000000500000000 1700000000500000123 dataOpts (Register AllViews)).out =
      .ok (registryWith (some 9007199254740992) (some 0) (some 8) (some 1700000000)) ∧
    gauge (registryWith (some 9007199254740992) (some 0) (some 8) (some 1700000000))
      ColdStoreBadgerSize = some 9007199254740992 :=
  ⟨rfl, rfl, rfl⟩

/-- C5 (amended): whatever the four gauges held, when the sampler returns the
sample `r`, one call of updateMetrics leaves the cold-store, hot-store and
markset gauges holding the float64 nearest to `r.coldstoreBadger`,
`r.hotstoreBadger` and `r.marksetBadger`, which is the field itself when its
magnitude is at most `2 ^ 53`, and the last-updated gauge holding the current
time in Unix epoch seconds: prior values are overwritten, not accumulated,
also for a field whose probe failed. -/
theorem updateMetrics_overwrites (w : World) (now nowLog : Instant) (opts : AgentOptions)
    (c h m t : Option Int) (r : diskUsageResult)
    (hs : (getDiskUsage w opts).out = .ok r) :
    ∃ reg, (updateMetrics w now nowLog opts (registryWith c h m t)).out = .ok reg ∧
      reg = registryWith (some (toFloat64 r.coldstoreBadger))
        (some (toFloat64 r.hotstoreBadger)) (some (toFloat64 r.marksetBadger))
        (some (unixSeconds now)) ∧
      gauge reg ColdStoreBadgerSize = some (toFloat64 r.coldstoreBadger) ∧
      gauge reg HotStoreBadgerSize = some (toFloat64 r.hotstoreBadger) ∧
      gauge reg MarkSetBadgerSize = some (toFloat64 r.marksetBadger) ∧
      gauge reg DiskUsageLastUpdatedAt = some (unixSeconds now) ∧
      (r.coldstoreBadger.natAbs ≤ 2 ^ 53 →
        gauge reg ColdStoreBadgerSize = some r.coldstoreBadger) ∧
      (r.hotstoreBadger.natAbs ≤ 2 ^ 53 →
        gauge reg HotStoreBadgerSize = some r.hotstoreBadger) ∧
      (r.marksetBadger.natAbs ≤ 2 ^ 53 →
        gauge reg MarkSetBadgerSize = some r.marksetBadger) := by
  refine ⟨_, updateMetrics_out w now nowLog opts _ r hs, ?_⟩
  rw [recordInto_registryWith, toFloat64_unixSeconds]
  refine ⟨rfl, rfl, rfl, rfl, rfl, ?_, ?_, ?_⟩
  · intro hb
    rw [toFloat64_exact _ hb]
    rfl
  · intro hb
    rw [toFloat64_exact _ hb]
    rfl
  · intro hb
    rw [toFloat64_exact _ hb]
    rfl

/-- Witness of C5 (amended) on the scenario machine at 1700000000.5 seconds
after the epoch, over gauges left at 111, 222, 333 and 444 by an earlier
cycle: the hot-store gauge, whose probe fails, goes to 0. -/
theorem updateMetrics_overwrites_witness :
    (getDiskUsage scenarioWorld dataOpts).out = .ok ⟨8, 0, 4⟩ ∧
    ∃ reg, (updateMetrics scenarioWorld 1700000000500000000 1700000000500000123 dataOpts
        (registryWith (some 111) (some 222) (some 333) (some 444))).out = .ok reg ∧
      gauge reg ColdStoreBadgerSize = some 4 ∧
      gauge reg HotStoreBadgerSize = some 0 ∧
      gauge reg MarkSetBadgerSize = some 8 ∧
      gauge reg DiskUsageLastUpdatedAt = some 1700000000 := by
  refine ⟨rfl, ?_⟩
  obtain ⟨reg, h1, _, _, _, _, h6, h7, h8, h9⟩ :=
    updateMetrics_overwrites scenarioWorld 1700000000500000000 1700000000500000123
      dataOpts (some 111) (some 222) (some 333) (some 444) ⟨8, 0, 4⟩ rfl
  exact ⟨reg, h1, h7 (by decide), h8 (by decide), h9 (by decide), h6⟩

/-! ## time.ParseDuration returns -/

theorem leadingInt_length (s : List Char) :
    ∀ (x v : Nat) (r : List Char), leadingInt s x = some (v, r) → r.length ≤ s.length := by
  induction s with
  | nil =>
    intro x v r h
    simp [leadingInt] at h
    simp [← h.2]
  | cons c cs ih =>
    intro x v r h
    unfold leadingInt at h
    dsimp only at h
    split_ifs at h
    · have := ih _ _ _ h
      simp only [List.length_cons]
      omega
    · simp only [Option.some.injEq, Prod.mk.injEq] at h
      simp [← h.2]

theorem leadingFraction_length (s : List Char) :
    ∀ (x k : Nat) (o : Bool), (leadingFraction s x k o).2.2.length ≤ s.length := by
  induction s with
  | nil =>
    intro x k o
    simp [leadingFraction]
  | cons c cs ih =>
    intro x k o
    unfold leadingFraction
    dsimp only
    split_ifs
    · have := ih x k true
      simp only [List.length_cons]
      omega
    · have := ih x k true
      simp only [List.length_cons]
      omega
    · have := ih x k true
      simp only [List.length_cons]
      omega
    · have := ih (x * 10 + (c.toNat - 48)) (k + 1) false
      simp only [List.length_cons]
      omega
    · simp

theorem fractionPart_length (s : List Char) : (fractionPart s).2.2.1.length ≤ s.length := by
  unfold fractionPart
  split
  · rename_i t
    have := leadingFraction_length t 0 0 false
    simp only [List.length_cons]
    omega
  · simp

theorem takeWhile_dropWhile_length (q : Char → Bool) (s : List Char) :
    (s.takeWhile q).length + (s.dropWhile q).length = s.length := by
  rw [← List.length_append, List.takeWhile_append_dropWhile]

/-- A pass of the loop of `time.ParseDuration` that succeeds consumes at
least one character. -/
theorem durationTerm_length (frac : Nat → Nat → Nat → Nat) (orig : String) (s : List Char)
    (v : Nat) (r : List Char) (h : durationTerm frac orig s = .ok (v, r)) :
    r.length < s.length := by
  unfold durationTerm at h
  dsimp only at h
  split at h
  · simp at h
  · rename_i c cs
    split at h
    · simp at h
    · split at h
      · simp at h
      · rename_i v0 s1 hli
        have h1 := leadingInt_length _ _ _ _ hli
        have h2 := fractionPart_length s1
        have h3 := takeWhile_dropWhile_length
          (fun c => decide ¬ (c == '.' ∨ isDigit c)) (fractionPart s1).2.2.1
        split at h
        · simp at h
        · split at h
          · simp at h
          · rename_i hu
            split at h
            · cases h
            · split_ifs at h <;> cases h <;> omega

/-- With one unit of fuel per character the loop of `time.ParseDuration`
does not run out of fuel. -/
theorem durationLoop_fuel (frac : Nat → Nat → Nat → Nat) (orig : String) :
    ∀ (fuel : Nat) (s : List Char) (d : Nat), s.length ≤ fuel →
      durationLoop frac orig fuel s d ≠ none := by
  intro fuel
  induction fuel with
  | zero =>
    intro s d hs
    have : s = [] := List.eq_nil_of_length_eq_zero (by omega)
    subst this
    simp [durationLoop]
  | succ n ih =>
    intro s d hs
    cases s with
    | nil => simp [durationLoop]
    | cons c cs =>
      unfold durationLoop
      split
      · simp
      · rename_i v rest hterm
        have hlt := durationTerm_length frac orig _ _ _ hterm
        simp only [List.length_cons] at hlt hs
        dsimp only
        split_ifs
        · simp
        · exact ih rest _ (by omega)

/-- The loop of `time.ParseDuration` returns on every input. -/
theorem ParseDuration_loop_returns (frac : Nat → Nat → Nat → Nat) (orig : String) :
    durationLoop frac orig (afterSign orig).length (afterSign orig) 0 ≠ none :=
  durationLoop_fuel frac orig _ _ _ (Nat.le_refl _)

/-! ## The scheduler -/

/-- The startup lines of `Start`, case by case. -/
theorem startup_cases (env : Startup) (opts : AgentOptions) :
    startup env opts =
      match env.newExporter with
      | some err =>
        ⟨[.newExporter "splitstore", .log (.withError "error creating exporter:" err)],
          .error (.fatal 1)⟩
      | none =>
        if env.handleRejects opts.MetricsPath then
          ⟨[.newExporter "splitstore", .httpHandle opts.MetricsPath],
            .error (.panicked (.httpHandleRejected opts.MetricsPath))⟩
        else
          match ParseDuration env.frac opts.Interval with
          | .error err =>
            ⟨endpointEffects opts ++ [.log (.withError "error parsing interval:" err)],
              .error (.fatal 1)⟩
          | .ok d =>
            if d ≤ 0 then ⟨endpointEffects opts, .error (.panicked .nonPositiveTicker)⟩
            else ⟨endpointEffects opts ++ [.newTicker d], .ok ()⟩ := by
  unfold startup initMetricsEndpoint
  cases hexp : env.newExporter with
  | some err => rfl
  | none =>
    cases hh : env.handleRejects opts.MetricsPath with
    | true => rfl
    | false =>
      cases hp : ParseDuration env.frac opts.Interval with
      | error err =>
        simp [Run.bind_eq, Run.andThen, Run.emit, Run.abort, hp, endpointEffects]
      | ok d =>
        by_cases hd : d ≤ 0
        · simp [Run.bind_eq, Run.andThen, Run.emit, Run.abort, hp, endpointEffects,
            NewTicker, hd]
        · simp [Run.bind_eq, Run.andThen, Run.emit, Run.abort, hp, endpointEffects,
            NewTicker, hd]

/-- Outside `Running` no case of the `select` does anything. -/
theorem step_of_not_running (opts : AgentOptions) (p : Proc) (ev : Event)
    (h : p.phase ≠ .Running) : step opts p ev = p := by
  cases ev <;> simp only [step]

theorem foldl_step_of_not_running (opts : AgentOptions) (evs : List Event) :
    ∀ p : Proc, p.phase ≠ .Running → evs.foldl (step opts) p = p := by
  induction evs with
  | nil => intro p _; rfl
  | cons ev evs ih =>
    intro p h
    rw [List.foldl_cons, step_of_not_running opts p ev h]
    exact ih p h

/-- Entering `Start` from `Idle`: `Running` if the startup lines return,
aborted otherwise; no call of updateMetrics either way. -/
theorem start_init (env : Startup) (opts : AgentOptions) (reg : Registry) :
    start env opts (Proc.init reg) =
      match (startup env opts).out with
      | .ok _ => ⟨.Running, reg, (startup env opts).trace, 0⟩
      | .error a => ⟨.Aborted a, reg, (startup env opts).trace, 0⟩ := by
  simp only [start, Proc.init]
  split <;> simp

/-- Phase and trace after the startup lines, when the endpoint is set up. -/
theorem start_of_endpoint (env : Startup) (opts : AgentOptions) (reg : Registry)
    (hexp : env.newExporter = none) (hh : env.handleRejects opts.MetricsPath = false) :
    start env opts (Proc.init reg) =
      match ParseDuration env.frac opts.Interval with
      | .error err =>
        ⟨.Aborted (.fatal 1), reg,
          endpointEffects opts ++ [.log (.withError "error parsing interval:" err)], 0⟩
      | .ok d =>
        if d ≤ 0 then ⟨.Aborted (.panicked .nonPositiveTicker), reg, endpointEffects opts, 0⟩
        else ⟨.Running, reg, endpointEffects opts ++ [.newTicker d], 0⟩ := by
  rw [start_init, startup_cases, hexp]
  simp only [hh]
  cases ParseDuration env.frac opts.Interval with
  | error err => rfl
  | ok d =>
    by_cases hd : d ≤ 0
    · simp [hd]
    · simp [hd]

/-- A cycle whose sampler returns keeps the scheduler running and replaces
the data of the four views. -/
theorem step_tick_ok (opts : AgentOptions) (p : Proc) (w : World) (now nowLog : Instant)
    (c h m t : Option Int) (r : diskUsageResult)
    (hp : p.phase = .Running) (hreg : p.registry = registryWith c h m t)
    (hs : (getDiskUsage w opts).out = .ok r) :
    (step opts p (.tick w now nowLog)).phase = .Running ∧
    (step opts p (.tick w now nowLog)).registry =
      registryWith (some (toFloat64 r.coldstoreBadger)) (some (toFloat64 r.hotstoreBadger))
        (some (toFloat64 r.marksetBadger)) (some (unixSeconds now)) := by
  have hu := updateMetrics_out w now nowLog opts p.registry r hs
  rw [hreg, recordInto_registryWith, toFloat64_unixSeconds] at hu
  simp only [step, hp]
  rw [hreg, hu]
  exact ⟨rfl, rfl⟩

/-- Seconds since the epoch do not decrease when the clock advances, and
increase when it advances by a second or more. -/
theorem unixSeconds_mono (t1 t2 : Instant) (h : t1.nanos < t2.nanos) :
    unixSeconds t1 ≤ unixSeconds t2 ∧
    (t1.nanos + 1000000000 ≤ t2.nanos → unixSeconds t1 < unixSeconds t2) := by
  unfold unixSeconds
  constructor
  · exact Int.ediv_le_ediv (by norm_num) (le_of_lt h)
  · intro h2
    have h3 : (t1.nanos + 1000000000) / 1000000000 ≤ t2.nanos / 1000000000 :=
      Int.ediv_le_ediv (by norm_num) h2
    have h4 : (t1.nanos + 1000000000) / 1000000000 = t1.nanos / 1000000000 + 1 := by
      have := @Int.add_mul_ediv_right t1.nanos 1 1000000000 (by norm_num)
      simpa using this
    omega

/-- C7 (as stated, refuted): with the interval `abc`, which does not parse,
`Start` ends in `log.Fatal` only after `initMetricsEndpoint` has registered
the handler for `/metrics` and launched the goroutine that listens on
`:8080`. -/
theorem Start_abc_endpoint_registered :
    ParseDuration plainStartup.frac "abc" =
      .error (.badDuration "time: invalid duration abc") ∧
    (Start plainStartup (optsWithInterval "abc") (Register AllViews) []).phase =
      .Aborted (.fatal 1) ∧
    (Start plainStartup (optsWithInterval "abc") (Register AllViews) []).trace =
      [.newExporter "splitstore", .httpHandle "/metrics", .goListenAndServe ":8080",
        .log (.withError "error parsing interval:"
          (.badDuration "time: invalid duration abc"))] :=
  ⟨rfl, rfl, rfl⟩

/-- C7 (amended): for every interval string that does not parse as a
duration, `Start` ends the process before the tick loop is entered: the
scheduler is never `Running`, no ticker is created, updateMetrics is not
called and nothing is recorded, whatever the `select` would have offered.
When `initMetricsEndpoint` returns, the handler has been registered and the
listener goroutine launched before the interval is parsed, and the process
ends in `log.Fatal`. -/
theorem Start_unparsed_interval (env : Startup) (opts : AgentOptions) (reg : Registry)
    (events : List Event) (e : GoError)
    (hparse : ParseDuration env.frac opts.Interval = .error e) :
    (∃ a, (Start env opts reg events).phase = .Aborted a) ∧
    (Start env opts reg events).updates = 0 ∧
    publishes (Start env opts reg events).trace = 0 ∧
    (Start env opts reg events).registry = reg ∧
    (∀ d, Effect.newTicker d ∉ (Start env opts reg events).trace) ∧
    (env.newExporter = none → env.handleRejects opts.MetricsPath = false →
      (Start env opts reg events).phase = .Aborted (.fatal 1) ∧
      (Start env opts reg events).trace =
        [.newExporter "splitstore", .httpHandle opts.MetricsPath,
          .goListenAndServe opts.MetricsEndpoint,
          .log (.withError "error parsing interval:" e)]) := by
  have key : ∃ a tr, start env opts (Proc.init reg) = ⟨.Aborted a, reg, tr, 0⟩ ∧
      publishes tr = 0 ∧ (∀ d, Effect.newTicker d ∉ tr) ∧
      (env.newExporter = none → env.handleRejects opts.MetricsPath = false →
        a = .fatal 1 ∧ tr = [.newExporter "splitstore", .httpHandle opts.MetricsPath,
          .goListenAndServe opts.MetricsEndpoint,
          .log (.withError "error parsing interval:" e)]) := by
    rw [start_init, startup_cases, hparse]
    cases hexp : env.newExporter with
    | some err =>
      exact ⟨_, _, rfl, rfl, by simp, by intro h; cases h⟩
    | none =>
      cases hh : env.handleRejects opts.MetricsPath with
      | true => exact ⟨_, _, rfl, rfl, by simp, by intro _ h; cases h⟩
      | false =>
        exact ⟨_, _, rfl, rfl, by simp [endpointEffects], fun _ _ => ⟨rfl, rfl⟩⟩
  obtain ⟨a, tr, hstart, hpub, htick, hend⟩ := key
  have hS : Start env opts reg events = ⟨.Aborted a, reg, tr, 0⟩ := by
    unfold Start
    rw [hstart]
    exact foldl_step_of_not_running opts events _ (by simp)
  rw [hS]
  refine ⟨⟨a, rfl⟩, rfl, hpub, rfl, htick, ?_⟩
  intro hexp hh
  obtain ⟨ha, htr⟩ := hend hexp hh
  exact ⟨by rw [ha], htr⟩

/-- Witness of C7 (amended): the interval `abc`, with two ticks and a
cancellation offered. -/
theorem Start_unparsed_interval_witness :
    ParseDuration plainStartup.frac (optsWithInterval "abc").Interval =
      .error (.badDuration "time: invalid duration abc") ∧
    ((∃ a, (Start plainStartup (optsWithInterval "abc") (Register AllViews)
        [.tick healthyWorld 1700000000000000000 1700000000000000001, .cancel]).phase =
          .Aborted a) ∧
    (Start plainStartup (optsWithInterval "abc") (Register AllViews)
      [.tick healthyWorld 1700000000000000000 1700000000000000001, .cancel]).updates = 0 ∧
    publishes (Start plainStartup (optsWithInterval "abc") (Register AllViews)
      [.tick healthyWorld 1700000000000000000 1700000000000000001, .cancel]).trace = 0 ∧
    (Start plainStartup (optsWithInterval "abc") (Register AllViews)
      [.tick healthyWorld 1700000000000000000 1700000000000000001, .cancel]).registry =
        Register AllViews ∧
    (∀ d, Effect.newTicker d ∉ (Start plainStartup (optsWithInterval "abc")
      (Register AllViews)
      [.tick healthyWorld 1700000000000000000 1700000000000000001, .cancel]).trace) ∧
    (plainStartup.newExporter = none →
      plainStartup.handleRejects (optsWithInterval "abc").MetricsPath = false →
      (Start plainStartup (optsWithInterval "abc") (Register AllViews)
        [.tick healthyWorld 1700000000000000000 1700000000000000001, .cancel]).phase =
          .Aborted (.fatal 1) ∧
      (Start plainStartup (optsWithInterval "abc") (Register AllViews)
        [.tick healthyWorld 1700000000000000000 1700000000000000001, .cancel]).trace =
        [.newExporter "splitstore", .httpHandle (optsWithInterval "abc").MetricsPath,
          .goListenAndServe (optsWithInterval "abc").MetricsEndpoint,
          .log (.withError "error parsing interval:"
            (.badDuration "time: invalid duration abc"))])) :=
  ⟨rfl, Start_unparsed_interval plainStartup (optsWithInterval "abc") (Register AllViews)
    [.tick healthyWorld 1700000000000000000 1700000000000000001, .cancel] _ rfl⟩

/-- C8: for a valid configuration (the endpoint is set up and the interval
parses to a positive duration) `Start` enters `Running`; a cancellation
observed while `Running` moves the scheduler to `Stopped` without calling
updateMetrics; `Stopped` is terminal, nothing the `select` offers afterwards
changes the process; and a run whose first event is the cancellation ends
`Stopped` with zero calls of updateMetrics, zero records and the registry
untouched. -/
theorem cancel_stops_scheduler (env : Startup) (opts : AgentOptions) (reg : Registry)
    (d : Int) (hexp : env.newExporter = none)
    (hh : env.handleRejects opts.MetricsPath = false)
    (hparse : ParseDuration env.frac opts.Interval = .ok d) (hpos : 0 < d) :
    (start env opts (Proc.init reg)).phase = .Running ∧
    (∀ p : Proc, p.phase = .Running →
      (step opts p .cancel).phase = .Stopped ∧
      (step opts p .cancel).updates = p.updates ∧
      (step opts p .cancel).registry = p.registry ∧
      publishes (step opts p .cancel).trace = publishes p.trace) ∧
    (∀ (p : Proc) (evs : List Event), p.phase = .Stopped →
      evs.foldl (step opts) p = p) ∧
    (∀ evs : List Event,
      (Start env opts reg (.cancel :: evs)).phase = .Stopped ∧
      (Start env opts reg (.cancel :: evs)).updates = 0 ∧
      publishes (Start env opts reg (.cancel :: evs)).trace = 0 ∧
      (Start env opts reg (.cancel :: evs)).registry = reg) := by
  have hstart : start env opts (Proc.init reg) =
      ⟨.Running, reg, endpointEffects opts ++ [.newTicker d], 0⟩ := by
    rw [start_of_endpoint env opts reg hexp hh, hparse]
    simp [not_le.mpr hpos]
  have hcancel : ∀ p : Proc, p.phase = .Running →
      (step opts p .cancel).phase = .Stopped ∧
      (step opts p .cancel).updates = p.updates ∧
      (step opts p .cancel).registry = p.registry ∧
      publishes (step opts p .cancel).trace = publishes p.trace := by
    intro p hp
    simp [step, hp, publishes, List.filter_append]
  refine ⟨by rw [hstart], hcancel, ?_, ?_⟩
  · intro p evs hp
    exact foldl_step_of_not_running opts evs p (by rw [hp]; simp)
  · intro evs
    have hS : Start env opts reg (.cancel :: evs) =
        step opts (start env opts (Proc.init reg)) .cancel := by
      unfold Start
      rw [List.foldl_cons]
      exact foldl_step_of_not_running opts evs _
        (by rw [(hcancel _ (by rw [hstart])).1]; simp)
    rw [hS]
    obtain ⟨h1, h2, h3, h4⟩ := hcancel (start env opts (Proc.init reg)) (by rw [hstart])
    refine ⟨h1, ?_, ?_, ?_⟩
    · rw [h2, hstart]
    · rw [h4, hstart]
      simp [publishes, endpointEffects]
    · rw [h3, hstart]

/-- Witness of C8: the default interval `10m`; the cancellation comes first
and a tick is offered after it. -/
theorem cancel_stops_scheduler_witness :
    plainStartup.newExporter = none ∧
    plainStartup.handleRejects dataOpts.MetricsPath = false ∧
    ParseDuration plainStartup.frac dataOpts.Interval = .ok 600000000000 ∧
    (0 : Int) < 600000000000 ∧
    (Start plainStartup dataOpts (Register AllViews)
      [.cancel, .tick healthyWorld 1700000000000000000 1700000000000000001]).phase =
        .Stopped ∧
    (Start plainStartup dataOpts (Register AllViews)
      [.cancel, .tick healthyWorld 1700000000000000000 1700000000000000001]).updates = 0 ∧
    publishes (Start plainStartup dataOpts (Register AllViews)
      [.cancel, .tick healthyWorld 1700000000000000000 1700000000000000001]).trace = 0 ∧
    (Start plainStartup dataOpts (Register AllViews)
      [.cancel, .tick healthyWorld 1700000000000000000 1700000000000000001]).registry =
        Register AllViews :=
  ⟨rfl, rfl, rfl, by decide,
    (cancel_stops_scheduler plainStartup dataOpts (Register AllViews) 600000000000
      rfl rfl rfl (by decide)).2.2.2
      [.tick healthyWorld 1700000000000000000 1700000000000000001]⟩

/-- C9 (as stated, refuted): with the interval `500ms`, two consecutive
cycles on a machine where all three probes succeed, the wall clock reading
1700000000.1 s in the first and 1700000000.6 s in the second: the clock has
strictly increased, and the last-updated gauge holds 1700000000 after both
cycles. -/
theorem lastUpdated_same_second :
    (parseDiskUsageOn healthyWorld dataOpts "chain").out = .ok (4, none) ∧
    (parseDiskUsageOn healthyWorld dataOpts "splitstore/hot.badger").out = .ok (4, none) ∧
    (parseDiskUsageOn healthyWorld dataOpts "splitstore/markset.badger").out =
      .ok (4, none) ∧
    (1700000000100000000 : Instant).nanos < (1700000000600000000 : Instant).nanos ∧
    gauge (Start plainStartup (optsWithInterval "500ms") (Register AllViews)
      [.tick healthyWorld 1700000000100000000 1700000000100000001]).registry
      DiskUsageLastUpdatedAt = some 1700000000 ∧
    gauge (Start plainStartup (optsWithInterval "500ms") (Register AllViews)
      [.tick healthyWorld 1700000000100000000 1700000000100000001,
        .tick healthyWorld 1700000000600000000 1700000000600000001]).registry
      DiskUsageLastUpdatedAt = some 1700000000 :=
  ⟨rfl, rfl, rfl, by decide, rfl, rfl⟩

/-- C9 (amended): for every two consecutive sample cycles in which all three
probes succeed, given a wall clock that strictly increases between the
cycles, the last-updated gauge after each cycle equals that cycle's
wall-clock time in whole Unix epoch seconds, its value after the second
cycle is not less than after the first, and it is strictly greater when the
second reading is at least one second after the first. -/
theorem lastUpdated_advances (opts : AgentOptions) (p : Proc) (c h m t : Option Int)
    (w1 w2 : World) (t1 l1 t2 l2 : Instant) (c1 h1 m1 c2 h2 m2 : Int)
    (hp : p.phase = .Running) (hreg : p.registry = registryWith c h m t)
    (hc1 : (parseDiskUsageOn w1 opts "chain").out = .ok (c1, none))
    (hh1 : (parseDiskUsageOn w1 opts "splitstore/hot.badger").out = .ok (h1, none))
    (hm1 : (parseDiskUsageOn w1 opts "splitstore/markset.badger").out = .ok (m1, none))
    (hc2 : (parseDiskUsageOn w2 opts "chain").out = .ok (c2, none))
    (hh2 : (parseDiskUsageOn w2 opts "splitstore/hot.badger").out = .ok (h2, none))
    (hm2 : (parseDiskUsageOn w2 opts "splitstore/markset.badger").out = .ok (m2, none))
    (hclock : t1.nanos < t2.nanos) :
    gauge (step opts p (.tick w1 t1 l1)).registry DiskUsageLastUpdatedAt =
      some (unixSeconds t1) ∧
    gauge (step opts (step opts p (.tick w1 t1 l1)) (.tick w2 t2 l2)).registry
      DiskUsageLastUpdatedAt = some (unixSeconds t2) ∧
    unixSeconds t1 ≤ unixSeconds t2 ∧
    (t1.nanos + 1000000000 ≤ t2.nanos → unixSeconds t1 < unixSeconds t2) := by
  have s1 := getDiskUsage_out w1 opts _ _ _ hc1 hh1 hm1
  have s2 := getDiskUsage_out w2 opts _ _ _ hc2 hh2 hm2
  obtain ⟨hp1, hr1⟩ := step_tick_ok opts p w1 t1 l1 c h m t _ hp hreg s1
  obtain ⟨_, hr2⟩ := step_tick_ok opts _ w2 t2 l2 _ _ _ _ _ hp1 hr1 s2
  rw [hr1, hr2]
  exact ⟨rfl, rfl, unixSeconds_mono t1 t2 hclock⟩

/-- Witness of C9 (amended): the scenario of the refutation, from a running
agent with empty gauges. -/
theorem lastUpdated_advances_witness :
    gauge (step dataOpts ⟨.Running, Register AllViews, [], 0⟩
      (.tick healthyWorld 1700000000100000000 1700000000100000001)).registry
      DiskUsageLastUpdatedAt = some (unixSeconds 1700000000100000000) ∧
    gauge (step dataOpts (step dataOpts ⟨.Running, Register AllViews, [], 0⟩
      (.tick healthyWorld 1700000000100000000 1700000000100000001))
      (.tick healthyWorld 1700000000600000000 1700000000600000001)).registry
      DiskUsageLastUpdatedAt = some (unixSeconds 1700000000600000000) ∧
    unixSeconds 1700000000100000000 ≤ unixSeconds 1700000000600000000 ∧
    ((1700000000100000000 : Instant).nanos + 1000000000 ≤
        (1700000000600000000 : Instant).nanos →
      unixSeconds 1700000000100000000 < unixSeconds 1700000000600000000) :=
  lastUpdated_advances dataOpts ⟨.Running, Register AllViews, [], 0⟩ none none none none
    healthyWorld healthyWorld 1700000000100000000 1700000000100000001
    1700000000600000000 1700000000600000001 4 4 4 4 4 4 rfl rfl rfl rfl rfl rfl rfl rfl
    (by decide)

/-- C10 (as stated, refuted): the intervals `0s` and `-5m` parse as
durations, 0 and minus five minutes, and `Start` does not enter the tick
loop with them: `time.NewTicker` panics. -/
theorem Start_nonpositive_interval_panics :
    ParseDuration plainStartup.frac "0s" = .ok 0 ∧
    (Start plainStartup (optsWithInterval "0s") (Register AllViews) []).phase =
      .Aborted (.panicked .nonPositiveTicker) ∧
    ParseDuration plainStartup.frac "-5m" = .ok (-300000000000) ∧
    (Start plainStartup (optsWithInterval "-5m") (Register AllViews) []).phase =
      .Aborted (.panicked .nonPositiveTicker) :=
  ⟨rfl, rfl, rfl, rfl⟩

/-- C10 (amended): once `initMetricsEndpoint` has returned, for every
configuration whose interval parses as a positive duration `Start` arms a
repeating timer at that interval and enters the tick loop; an interval that
parses as zero or a negative duration makes `time.NewTicker` panic, and an
interval that does not parse ends the process in `log.Fatal`; so `Start`
reaches `Running` exactly when the interval parses as a positive duration. -/
theorem Start_arms_timer (env : Startup) (opts : AgentOptions) (reg : Registry)
    (hexp : env.newExporter = none) (hh : env.handleRejects opts.MetricsPath = false) :
    (∀ d, ParseDuration env.frac opts.Interval = .ok d → 0 < d →
      (start env opts (Proc.init reg)).phase = .Running ∧
      (start env opts (Proc.init reg)).trace =
        [.newExporter "splitstore", .httpHandle opts.MetricsPath,
          .goListenAndServe opts.MetricsEndpoint, .newTicker d]) ∧
    (∀ d, ParseDuration env.frac opts.Interval = .ok d → d ≤ 0 →
      (start env opts (Proc.init reg)).phase = .Aborted (.panicked .nonPositiveTicker)) ∧
    (∀ e, ParseDuration env.frac opts.Interval = .error e →
      (start env opts (Proc.init reg)).phase = .Aborted (.fatal 1)) ∧
    ((start env opts (Proc.init reg)).phase = .Running ↔
      ∃ d, ParseDuration env.frac opts.Interval = .ok d ∧ 0 < d) := by
  have hs := start_of_endpoint env opts reg hexp hh
  refine ⟨?_, ?_, ?_, ?_⟩
  · intro d hd hpos
    rw [hs, hd]
    simp [not_le.mpr hpos, endpointEffects]
  · intro d hd hle
    rw [hs, hd]
    simp [hle]
  · intro e he
    rw [hs, he]
  · rw [hs]
    cases hpd : ParseDuration env.frac opts.Interval with
    | error e => simp
    | ok d =>
      by_cases hle : d ≤ 0
      · simp [hle]
      · simp [hle, not_le.mp hle]

/-- Witness of C10 (amended): the default interval `10m`. -/
theorem Start_arms_timer_witness :
    plainStartup.newExporter = none ∧
    plainStartup.handleRejects dataOpts.MetricsPath = false ∧
    ParseDuration plainStartup.frac dataOpts.Interval = .ok 600000000000 ∧
    (start plainStartup dataOpts (Proc.init (Register AllViews))).phase = .Running ∧
    (start plainStartup dataOpts (Proc.init (Register AllViews))).trace =
      [.newExporter "splitstore", .httpHandle dataOpts.MetricsPath,
        .goListenAndServe dataOpts.MetricsEndpoint, .newTicker 600000000000] :=
  ⟨rfl, rfl, rfl,
    (Start_arms_timer plainStartup dataOpts (Register AllViews) rfl rfl).1
      600000000000 rfl (by decide)⟩

end Splitstore
